import Mathlib

/-!
Shallow embedding of `src/analytics.js` (1NB Analytics), a browser-local
usage-analytics recorder.

Modelling conventions:
* JavaScript objects used as string-keyed maps become insertion-ordered
  association lists (`List (String × _)`); property read is `getK`, property
  write is `setK`.
* A JavaScript `Set` is a list of elements in insertion order that the `Set`
  operations keep duplicate-free; the persisted `uniqueVisitors` field, which
  at runtime may be a `Set`, an `Array` (after a JSON round trip) or anything
  else, is the sum type `UV`.
* Machine numbers are `Nat`/`Int`; `Math.round (a / b)` on nonnegative
  operands (round half away from zero, here half up) is
  `(2 * a + b) / (2 * b)` in `Nat` division.
* Fallible operations (strict-mode `TypeError` on malformed persisted data,
  storage-quota failure of `localStorage.setItem`) return `Except Unit`.
-/

namespace Analytics

/-- JS property read `m[k]`; `none` plays the role of `undefined`. -/
def getK {α : Type} : List (String × α) → String → Option α
  | [], _ => none
  | p :: t, k => if p.1 = k then some p.2 else getK t k

/-- JS property write `m[k] = v`: updates the existing entry in place,
otherwise appends (JS string-key property order). -/
def setK {α : Type} : List (String × α) → String → α → List (String × α)
  | [], k, v => [(k, v)]
  | p :: t, k, v => if p.1 = k then (k, v) :: t else p :: setK t k v

/-- `m[k] || dflt` for counter reads (counters are nonnegative). -/
def getD {α : Type} (m : List (String × α)) (k : String) (dflt : α) : α :=
  (getK m k).getD dflt

/-- `Set.prototype.add` on the underlying insertion-order list: append only
when the element is not yet present (line 150, `app.uniqueVisitors.add`). -/
def setAdd (l : List String) (v : String) : List String :=
  if v ∈ l then l else l ++ [v]

/-- `new Set(array)` (line 115): iterate and `add`, which keeps the first
occurrence of each element. -/
def dedupKeepFirst (l : List String) : List String :=
  l.foldl setAdd []

/-- Runtime shape of a persisted-then-reloaded `uniqueVisitors` field:
a live `Set`, an `Array` produced by the JSON round trip, or anything else
(`other`), cf. lines 113-118. -/
inductive UV where
  | set (l : List String)
  | arr (l : List String)
  | other
deriving DecidableEq

/-- One entry of the bounded `interactions['scores']` list (line 209). -/
structure ScoreRec where
  score : Int
  max : Int
  date : String
deriving DecidableEq

/-- A value stored under `app.interactions[...]`: either a numeric counter or
the score-record list (the spec's polymorphic `int | ScoreRecord[]`). -/
inductive IVal where
  | num (n : Int)
  | list (l : List ScoreRec)
deriving DecidableEq

/-- `data.apps[app]` (lines 99-111). -/
structure AppStats where
  firstSeen : String
  totalViews : Nat
  uniqueVisitors : UV
  dailyViews : List (String × Nat)
  interactions : List (String × IVal)
  sources : List (String × Nat)
  avgTimeOnPage : Nat
  totalTimeOnPage : Nat
  completedSessions : Nat
  shares : Nat
  affiliateClicks : Nat
deriving DecidableEq

/-- `data.global` (line 159). -/
structure GlobalStats where
  totalViews : Nat
  dailyViews : List (String × Nat)
  uniqueVisitors : List String
deriving DecidableEq

/-- The whole analytics document stored under `onb_analytics`.  An absent
`apps` property behaves exactly like an empty object here (line 97 creates it
before every use), so it is modelled as the empty list; `global` is created
lazily (line 159), hence `Option`. -/
structure Doc where
  apps : List (String × AppStats)
  global : Option GlobalStats
deriving DecidableEq

/-- `JSON.parse('{}')`: the empty document. -/
def emptyDoc : Doc := { apps := [], global := none }

/-- The fresh `AppStats` literal of lines 99-111. -/
def freshApp (todayKey : String) : AppStats :=
  { firstSeen := todayKey
    totalViews := 0
    uniqueVisitors := .set []
    dailyViews := []
    interactions := []
    sources := []
    avgTimeOnPage := 0
    totalTimeOnPage := 0
    completedSessions := 0
    shares := 0
    affiliateClicks := 0 }

/-- The repair step of `ensureApp` (lines 113-118): an `Array` is rebuilt
into a `Set` (`new Set(array)` keeps first occurrences), anything that is
neither `Array` nor `Set` is reset to an empty `Set`, a `Set` is kept. -/
def repairUV : UV → UV
  | .arr l => .set (dedupKeepFirst l)
  | .set l => .set l
  | .other => .set []

/-- `ensureApp(data, app)` (lines 96-120): create the entry with fresh
counters and `firstSeen = today()` when absent, then repair
`uniqueVisitors` on every call.  Returns the updated document together with
the (repaired) stats entry, which in JS is an alias into the document. -/
def ensureApp (d : Doc) (app todayKey : String) : Doc × AppStats :=
  let a0 := match getK d.apps app with
    | some a => a
    | none => freshApp todayKey
  let a1 := { a0 with uniqueVisitors := repairUV a0.uniqueVisitors }
  ({ d with apps := setK d.apps app a1 }, a1)

/-- The pre-save flattening of one field: the JSON replacer of lines 125-128
turns a `Set` into the array of its elements in insertion order and passes
every other value through. -/
def saveUV : UV → UV
  | .set l => .arr l
  | x => x

/-- Pre-save normalization of one app entry. -/
def prepareApp (a : AppStats) : AppStats :=
  { a with uniqueVisitors := saveUV a.uniqueVisitors }

/-- `prepareForSave(data)` (lines 123-130): a deep JSON round trip whose
replacer flattens every `Set` to an array; on this model the only set-valued
field is each app's `uniqueVisitors`, everything else is plain data carried
through `JSON.parse(JSON.stringify(...))` unchanged. -/
def prepareForSave (d : Doc) : Doc :=
  { d with apps := d.apps.map (fun p => (p.1, prepareApp p.2)) }

/-- `ensureApp`'s repair step (lines 113-118) on one app entry. -/
def repairApp (a : AppStats) : AppStats :=
  { a with uniqueVisitors := repairUV a.uniqueVisitors }

/-- The deserialize-side repair applied to every app entry: this is
`ensureApp`'s mandatory repair step (lines 113-118) run across the whole
reloaded document, i.e. the store's read-side half of the normalize/repair
cycle. -/
def repairAll (d : Doc) : Doc :=
  { d with apps := d.apps.map (fun p => (p.1, repairApp p.2)) }

/-- A document is well formed when every app's `uniqueVisitors` is a `Set`
(or its serialized array form) without duplicates — exactly the shapes a
document that went through `ensureApp`/`prepareForSave` can have. -/
def uvGoodB : UV → Bool
  | .set l => decide l.Nodup
  | .arr l => decide l.Nodup
  | .other => false

/-- Well-formedness of a whole document (see `uvGoodB`). -/
def wellFormedB (d : Doc) : Bool :=
  d.apps.all (fun p => uvGoodB p.2.uniqueVisitors)

/-- The `onb_session` record (lines 33-38). -/
structure Session where
  id : String
  start : Nat
  lastActivity : Nat
  pageviews : Nat
deriving DecidableEq

/-- `getSession()` (lines 29-44): reuse the stored session unless it is
absent or idle for strictly more than 30 minutes, in which case a fresh one
is built with `freshId`; then always set `lastActivity := now`, increment
`pageviews` and write the result back to the session slot.  Returns the
session and the new slot contents.  (`now - lastActivity` is JS number
subtraction; with `Nat` truncation a clock that moved backwards yields `0`,
matching the JS comparison `negative > threshold = false`.) -/
def getSession (now : Nat) (stored : Option Session) (freshId : String) :
    Session × Option Session :=
  let s0 : Session := match stored with
    | some s =>
        if now - s.lastActivity > 30 * 60 * 1000 then
          { id := freshId, start := now, lastActivity := now, pageviews := 0 }
        else s
    | none => { id := freshId, start := now, lastActivity := now, pageviews := 0 }
  let s1 := { s0 with lastActivity := now, pageviews := s0.pageviews + 1 }
  (s1, some s1)

/-- `path.replace(/^\/|\/$/g, '')` (line 48) removes one leading slash; the
trailing-slash half is `dropTrailingSlash` below. -/
def dropLeadingSlash : List Char → List Char
  | '/' :: t => t
  | p => p

/-- The `\/$` half of line 48: remove one trailing slash, if any. -/
def dropTrailingSlash : List Char → List Char
  | [] => []
  | [c] => if c = '/' then [] else [c]
  | c :: t => c :: dropTrailingSlash t

/-- `path.split('/')[0]` (line 50): the characters before the first slash. -/
def firstSegment : List Char → List Char
  | [] => []
  | c :: t => if c = '/' then [] else c :: firstSegment t

/-- `getAppName()` (lines 47-51) as a function of `window.location.pathname`:
strip one leading and one trailing slash, map the empty path and
`index.html` to `_homepage`, otherwise take the first path segment. -/
def getAppName (rawPath : String) : String :=
  let path := dropTrailingSlash (dropLeadingSlash rawPath.toList)
  if path = [] ∨ path = "index.html".toList then "_homepage"
  else String.mk (firstSegment path)

/-- JS `String.prototype.includes`: substring (contiguous) containment. -/
def jsIncludes (s pat : String) : Bool :=
  decide (pat.toList <:+: s.toList)

/-- `getReferrerCategory()` (lines 64-74) as a function of
`document.referrer`: first-match-wins ordered substring classification. -/
def getReferrerCategory (ref : String) : String :=
  if ref = "" then "direct"
  else if jsIncludes ref "onenightbuild.com" then "internal"
  else if jsIncludes ref "google." || jsIncludes ref "bing." ||
          jsIncludes ref "duckduckgo." then "search"
  else if jsIncludes ref "twitter.com" || jsIncludes ref "x.com" then "twitter"
  else if jsIncludes ref "reddit.com" then "reddit"
  else if jsIncludes ref "facebook.com" || jsIncludes ref "instagram.com" then "social"
  else if jsIncludes ref "t.co" then "twitter"
  else "referral"

/-- The pageview block of module initialization (lines 146-164), between
`loadData` and `saveData(prepareForSave(data))`: bump `totalViews`, add the
visitor to the app's `uniqueVisitors` set, bump the daily and source
counters, then mirror the global totals with a linear-scan-then-append
visitor list.  (`.add` on a value `ensureApp` did not turn into a `Set`
cannot happen — `repairUV` always yields a `Set`; the catch-all branch keeps
such a value unchanged.) -/
def recordPageview (d : Doc) (appName visitorId dateKey sourceKey todayKey : String) :
    Doc :=
  let r := ensureApp d appName todayKey
  let d1 := r.1
  let a := r.2
  let a := { a with totalViews := a.totalViews + 1 }
  let a := { a with uniqueVisitors :=
    match a.uniqueVisitors with
    | .set l => .set (setAdd l visitorId)
    | x => x }
  let a := { a with dailyViews := setK a.dailyViews dateKey (getD a.dailyViews dateKey 0 + 1) }
  let a := { a with sources := setK a.sources sourceKey (getD a.sources sourceKey 0 + 1) }
  let d2 := { d1 with apps := setK d1.apps appName a }
  let g := match d2.global with
    | some g => g
    | none => { totalViews := 0, dailyViews := [], uniqueVisitors := [] }
  let g := { g with
    totalViews := g.totalViews + 1
    dailyViews := setK g.dailyViews dateKey (getD g.dailyViews dateKey 0 + 1)
    uniqueVisitors :=
      if visitorId ∈ g.uniqueVisitors then g.uniqueVisitors
      else g.uniqueVisitors ++ [visitorId] }
  { d2 with global := some g }

/-- JS truthiness of an `interactions` value: `undefined` and `0` are falsy,
every nonzero number and every array (even the empty one) is truthy. -/
def ivTruthy : Option IVal → Bool
  | none => false
  | some (.num n) => decide (n ≠ 0)
  | some (.list _) => true

/-- The counter idiom `if (!m[k]) m[k] = 0; m[k]++` (e.g. lines 174-175,
204-205).  The increment is modelled for numeric (or absent) current values,
the only shapes these counters take in this development; the catch-all
branch leaves other shapes unchanged. -/
def bumpIV (m : List (String × IVal)) (k : String) : List (String × IVal) :=
  let m1 := if ivTruthy (getK m k) then m else setK m k (.num 0)
  match getK m1 k with
  | some (.num n) => setK m1 k (.num (n + 1))
  | _ => m1

/-- `push` followed by the trim of lines 209-213: append, and when the list
exceeds 100 entries keep the last 100 (`slice(-100)`). -/
def pushScore (l : List ScoreRec) (r : ScoreRec) : List ScoreRec :=
  let l2 := l ++ [r]
  if l2.length > 100 then l2.drop (l2.length - 100) else l2

/-- `window.onbComplete(score, maxScore)` (lines 200-217) acting on the
parsed document (the surrounding `loadData`/`saveData` handled by callers of
this model supply `stored` and consume the result).  `score = some (s, m)`
models a call with both arguments defined. -/
def onbComplete (stored : Doc) (appName todayKey dateKey : String)
    (score : Option (Int × Int)) : Doc :=
  let r := ensureApp stored appName todayKey
  let d1 := r.1
  let a := r.2
  let a := { a with completedSessions := a.completedSessions + 1 }
  let a := { a with interactions := bumpIV a.interactions "completed" }
  let a := match score with
    | none => a
    | some sm =>
      let i1 := if ivTruthy (getK a.interactions "scores") then a.interactions
                else setK a.interactions "scores" (.list [])
      match getK i1 "scores" with
      | some (.list l) =>
          let l2 := pushScore l ⟨sm.1, sm.2, dateKey⟩
          { a with interactions := setK i1 "scores" (.list l2) }
      | _ => { a with interactions := i1 }
  prepareForSave { d1 with apps := setK d1.apps appName a }

/-- One module-initialization pageview event for an app: either a pageview
recording cycle by some visitor, or a pure serialize/deserialize round trip
of the persisted document (a load, `ensureApp`'s repair, and a save with no
other mutation). -/
inductive PvEvent where
  | view (visitor : String)
  | roundtrip
deriving DecidableEq

/-- One step on the persisted document: a `view` is the full
load → `ensureApp` → mutate → `prepareForSave` → save cycle of lines
146-166; a `roundtrip` is the same cycle with the mutations omitted. -/
def pvStep (appName dateKey sourceKey todayKey : String) (d : Doc) :
    PvEvent → Doc
  | .view v => prepareForSave (recordPageview d appName v dateKey sourceKey todayKey)
  | .roundtrip => prepareForSave (ensureApp d appName todayKey).1

/-- Run a sequence of pageview events against an initially empty store. -/
def runEvents (events : List PvEvent) (appName dateKey sourceKey todayKey : String) :
    Doc :=
  events.foldl (pvStep appName dateKey sourceKey todayKey) emptyDoc

/-- The visitor identifiers of the `view` events, in order. -/
def viewsOf : List PvEvent → List String
  | [] => []
  | .view v :: es => v :: viewsOf es
  | .roundtrip :: es => viewsOf es

/-- Observer: the `uniqueVisitors` field of a stored app entry. -/
def appUV (d : Doc) (appName : String) : Option UV :=
  (getK d.apps appName).map (fun a => a.uniqueVisitors)

/-- Observer: the `interactions['scores']` field of a stored app entry. -/
def appScores (d : Doc) (appName : String) : Option IVal :=
  match getK d.apps appName with
  | some a => getK a.interactions "scores"
  | none => none

/-- The score record built by line 209 from a `(score, maxScore)` pair. -/
def toRec (dateKey : String) (sm : Int × Int) : ScoreRec :=
  ⟨sm.1, sm.2, dateKey⟩

/-- Run a sequence of `onbComplete(score, maxScore)` calls (each a full
load/save cycle) against an initially empty store. -/
def runCompletions (scores : List (Int × Int)) (appName todayKey dateKey : String) :
    Doc :=
  scores.foldl (fun d sm => onbComplete d appName todayKey dateKey (some sm)) emptyDoc

/-- `Math.round (t / v)` for nonnegative `t` and positive `v`: round half up
in exact arithmetic, i.e. `⌊t / v + 1 / 2⌋ = (2 * t + v) / (2 * v)` in `Nat`
division. -/
def roundDiv (t v : Nat) : Nat :=
  (2 * t + v) / (2 * v)

/-- `recordTimeOnPage()` (lines 222-233) as a function of `Date.now()` and
the captured `pageLoadTime`.  `Math.round((now - load) / 1000)` for
`now ≥ load` is `(now - load + 500) / 1000`; a clock that moved backwards
gives a nonpositive JS value, rejected like the `Nat`-truncated `0`.
Returns `none` when the elapsed time is rejected (the function exits before
`loadData`, so nothing is read or written), otherwise the saved document. -/
def recordTimeOnPage (stored : Doc) (appName todayKey : String)
    (now pageLoadTime : Nat) : Option Doc :=
  let timeSpent := (now - pageLoadTime + 500) / 1000
  if timeSpent < 1 ∨ timeSpent > 3600 then none
  else
    let r := ensureApp stored appName todayKey
    let d1 := r.1
    let a := r.2
    let a := { a with totalTimeOnPage := a.totalTimeOnPage + timeSpent }
    let viewCount := if a.totalViews = 0 then 1 else a.totalViews
    let a := { a with avgTimeOnPage := roundDiv a.totalTimeOnPage viewCount }
    some (prepareForSave { d1 with apps := setK d1.apps appName a })

/-- The JSON value parsed out of the `onb_analytics` slot: the literal
`null`, a bare number, or an object of the document shape.  (Strings and
booleans behave like `vnum` for the purpose of the strict-mode property
write below.) -/
inductive StoredVal where
  | vnull
  | vnum (n : Int)
  | vdoc (d : Doc)
deriving DecidableEq

/-- Contents of the `onb_analytics` slot before a call: absent, text that
`JSON.parse` rejects, or text parsing to a `StoredVal`. -/
inductive StoredSlot where
  | absent
  | unparseable
  | val (v : StoredVal)
deriving DecidableEq

/-- `loadData()` (lines 77-81): an absent slot reads as `'{}'`, a parse
failure is caught and becomes `{}`, otherwise the parsed value is returned
as is — whatever its shape. -/
def loadData : StoredSlot → StoredVal
  | .absent => .vdoc emptyDoc
  | .unparseable => .vdoc emptyDoc
  | .val v => v

/-- `ensureApp` on an arbitrary parsed value, exceptions included: reading
`data.apps` on `null` throws a `TypeError`, and under `'use strict'`
(line 12) the write `data.apps = {}` on a primitive (number, string,
boolean) also throws; only an object value proceeds (lines 96-120). -/
def ensureAppE : StoredVal → String → String → Except Unit (Doc × AppStats)
  | .vnull, _, _ => .error ()
  | .vnum _, _, _ => .error ()
  | .vdoc d, appName, todayKey => .ok (ensureApp d appName todayKey)

/-- `window.onbTrack(eventName)` (lines 171-177) over an arbitrary prior
slot.  `saveData` (lines 84-88) swallows a write failure (`writeOk = false`)
leaving the slot unchanged, but an exception thrown by `ensureApp` is not
caught anywhere and propagates to the caller. -/
def onbTrackE (slot : StoredSlot) (appName todayKey eventName : String)
    (writeOk : Bool) : Except Unit StoredSlot :=
  match ensureAppE (loadData slot) appName todayKey with
  | .error e => .error e
  | .ok da =>
    let d1 := da.1
    let a := { da.2 with interactions := bumpIV da.2.interactions eventName }
    let saved := prepareForSave { d1 with apps := setK d1.apps appName a }
    .ok (if writeOk then .val (.vdoc saved) else slot)

/-- `getVisitorId()` (lines 19-26) over the `onb_visitor` slot.  When the
slot is empty a fresh id is generated and persisted with
`localStorage.setItem`, which is not inside any try/catch: a storage
failure (`writeOk = false`) throws out of the function.  Returns the id and
the new slot contents. -/
def getVisitorId (slot : Option String) (newId : String) (writeOk : Bool) :
    Except Unit (String × Option String) :=
  match slot with
  | some id => .ok (id, some id)
  | none => if writeOk then .ok (newId, some newId) else .error ()

/-- `true` exactly on `Except.ok`: the call returned without throwing. -/
def exceptOk {α : Type} : Except Unit α → Bool
  | .ok _ => true
  | .error _ => false

/-- Slots whose parsed value `ensureApp` survives: absent, unparseable
(both load as `{}`), or an object-shaped document. -/
def slotWellFormedB : StoredSlot → Bool
  | .val .vnull => false
  | .val (.vnum _) => false
  | _ => true

/-- The three persistence slots touched by module initialization:
`onb_visitor` (localStorage), `onb_session` (sessionStorage) and the
`onb_analytics` document (localStorage, here in parsed well-shaped form). -/
structure Browser where
  visitorSlot : Option String
  sessionSlot : Option Session
  analyticsSlot : Doc
deriving DecidableEq

/-- Module initialization (lines 134-166), storage writes assumed to
succeed: derive the visitor id (persisting it when absent, line 23) and the
session (always rewritten, line 42), classify the page, and then — unless
the resolved app namespace is the reserved `admin`, line 143 — run the
pageview recording cycle against the analytics document.  `utm.source`
falls back to the referrer category when empty (line 154). -/
def moduleInit (b : Browser) (path : String) (now : Nat)
    (newVisitorId freshSessionId dateKey utmSource referrer : String) : Browser :=
  let visitorId := match b.visitorSlot with
    | some id => id
    | none => newVisitorId
  let sessionPair := getSession now b.sessionSlot freshSessionId
  let appName := getAppName path
  let refCategory := getReferrerCategory referrer
  let sourceKey := if utmSource = "" then refCategory else utmSource
  if appName = "admin" then
    { b with visitorSlot := some visitorId, sessionSlot := sessionPair.2 }
  else
    { visitorSlot := some visitorId
      sessionSlot := sessionPair.2
      analyticsSlot :=
        prepareForSave (recordPageview b.analyticsSlot appName visitorId dateKey sourceKey dateKey) }

/-! ### Concrete sample stores used by witnesses and counterexamples -/

/-- A well-formed in-memory document: one app with a live visitor `Set`. -/
def docSetA : Doc :=
  { apps := [("quiz",
      { firstSeen := "2026-01-01", totalViews := 5, uniqueVisitors := .set ["v1", "v2"],
        dailyViews := [("2026-01-01", 5)], interactions := [("completed", .num 2)],
        sources := [("direct", 5)], avgTimeOnPage := 8, totalTimeOnPage := 40,
        completedSessions := 2, shares := 0, affiliateClicks := 0 })]
    global := some { totalViews := 5, dailyViews := [("2026-01-01", 5)],
                     uniqueVisitors := ["v1", "v2"] } }

/-- A reloaded app entry whose visitor set deserialized as an array and
whose `interactions['scores']` holds a truthy numeric counter. -/
def appNum5 : AppStats :=
  { firstSeen := "2026-01-01", totalViews := 3, uniqueVisitors := .arr ["v1"],
    dailyViews := [], interactions := [("completed", .num 3), ("scores", .num 5)],
    sources := [], avgTimeOnPage := 0, totalTimeOnPage := 30,
    completedSessions := 3, shares := 0, affiliateClicks := 0 }

/-- A reloaded document holding `appNum5` under the `quiz` namespace. -/
def docNum5 : Doc := { apps := [("quiz", appNum5)], global := none }

/-- Like `appNum5` but with the falsy counter `0` under
`interactions['scores']`. -/
def appNum0 : AppStats :=
  { firstSeen := "2026-01-01", totalViews := 3, uniqueVisitors := .arr ["v1"],
    dailyViews := [], interactions := [("completed", .num 3), ("scores", .num 0)],
    sources := [], avgTimeOnPage := 0, totalTimeOnPage := 30,
    completedSessions := 3, shares := 0, affiliateClicks := 0 }

/-- A reloaded document holding `appNum0` under the `quiz` namespace. -/
def docNum0 : Doc := { apps := [("quiz", appNum0)], global := none }

/-! ### Association-list and set-simulation lemmas -/

theorem getK_setK_same {α : Type} (m : List (String × α)) (k : String) (v : α) :
    getK (setK m k v) k = some v := by
  induction m with
  | nil => simp [getK, setK]
  | cons p t ih =>
    by_cases h : p.1 = k
    · simp [setK, h, getK]
    · simp [setK, h, getK, ih]

theorem getK_setK_ne {α : Type} (m : List (String × α)) (k k2 : String) (v : α)
    (h : k ≠ k2) : getK (setK m k v) k2 = getK m k2 := by
  induction m with
  | nil => simp [getK, setK, h]
  | cons p t ih =>
    by_cases hp : p.1 = k
    · simp [setK, hp, getK, h]
    · simp [setK, hp, getK, ih]

theorem getK_map {α β : Type} (f : α → β) (m : List (String × α)) (k : String) :
    getK (m.map (fun p => (p.1, f p.2))) k = (getK m k).map f := by
  induction m with
  | nil => simp [getK]
  | cons p t ih => by_cases h : p.1 = k <;> simp [getK, h, ih]

theorem setAdd_nodup {l : List String} {v : String} (h : l.Nodup) :
    (setAdd l v).Nodup := by
  unfold setAdd
  by_cases hv : v ∈ l
  · simpa [hv] using h
  · simp [hv, List.nodup_append, h]

theorem foldl_setAdd_nodup (l : List String) :
    ∀ acc : List String, acc.Nodup → (l.foldl setAdd acc).Nodup := by
  induction l with
  | nil => intro acc h; simpa using h
  | cons v t ih =>
    intro acc h
    rw [List.foldl_cons]
    exact ih _ (setAdd_nodup h)

theorem dedupKeepFirst_nodup (l : List String) : (dedupKeepFirst l).Nodup :=
  foldl_setAdd_nodup l [] List.nodup_nil

theorem foldl_setAdd_of_disjoint :
    ∀ (l acc : List String), l.Nodup → (∀ x ∈ l, x ∉ acc) →
      l.foldl setAdd acc = acc ++ l := by
  intro l
  induction l with
  | nil => intro acc _ _; simp
  | cons v t ih =>
    intro acc hnd hdis
    rw [List.foldl_cons]
    have hv : v ∉ acc := hdis v (by simp)
    have hstep : setAdd acc v = acc ++ [v] := by simp [setAdd, hv]
    have hdis2 : ∀ x ∈ t, x ∉ acc ++ [v] := by
      intro x hx
      simp only [List.mem_append, List.mem_singleton]
      rintro (hxa | rfl)
      · exact hdis x (by simp [hx]) hxa
      · exact (List.nodup_cons.mp hnd).1 hx
    rw [hstep, ih (acc ++ [v]) (List.nodup_cons.mp hnd).2 hdis2]
    simp

theorem dedupKeepFirst_of_nodup {l : List String} (h : l.Nodup) :
    dedupKeepFirst l = l := by
  simpa [dedupKeepFirst] using foldl_setAdd_of_disjoint l [] h (by simp)

theorem setAdd_toFinset (l : List String) (v : String) :
    (setAdd l v).toFinset = insert v l.toFinset := by
  ext x
  by_cases hv : v ∈ l
  · simp only [setAdd, if_pos hv, List.mem_toFinset, Finset.mem_insert]
    constructor
    · exact Or.inr
    · rintro (rfl | h)
      · exact hv
      · exact h
  · simp only [setAdd, if_neg hv, List.mem_toFinset, Finset.mem_insert, List.mem_append,
      List.mem_singleton]
    tauto

theorem foldl_setAdd_toFinset (l : List String) :
    ∀ acc : List String, (l.foldl setAdd acc).toFinset = acc.toFinset ∪ l.toFinset := by
  induction l with
  | nil => intro acc; simp
  | cons v t ih =>
    intro acc
    rw [List.foldl_cons, ih, setAdd_toFinset]
    ext x
    simp


theorem dedupKeepFirst_toFinset (l : List String) :
    (dedupKeepFirst l).toFinset = l.toFinset := by
  unfold dedupKeepFirst
  rw [foldl_setAdd_toFinset]
  simp

theorem dedupKeepFirst_length (l : List String) :
    (dedupKeepFirst l).length = l.toFinset.card := by
  rw [← List.toFinset_card_of_nodup (dedupKeepFirst_nodup l), dedupKeepFirst_toFinset]

/-! ### Pageview-cycle lemmas -/

theorem appUV_some {d : Doc} {appName : String} {u : UV}
    (h : appUV d appName = some u) :
    ∃ a, getK d.apps appName = some a ∧ a.uniqueVisitors = u := by
  unfold appUV at h
  cases hg : getK d.apps appName with
  | none => rw [hg] at h; simp at h
  | some a =>
    rw [hg] at h
    simp at h
    exact ⟨a, rfl, h⟩

theorem pvStep_view_uv {d : Doc} {appName : String} {l : List String}
    (hl : l.Nodup) (h : appUV d appName = some (.arr l))
    (dateKey sourceKey todayKey v : String) :
    appUV (pvStep appName dateKey sourceKey todayKey d (.view v)) appName
      = some (.arr (setAdd l v)) := by
  obtain ⟨a, hg, hu⟩ := appUV_some h
  have he : ensureApp d appName todayKey
      = ({ d with apps := setK d.apps appName { a with uniqueVisitors := UV.set l } },
         { a with uniqueVisitors := UV.set l }) := by
    simp [ensureApp, hg, hu, repairUV, dedupKeepFirst_of_nodup hl]
  simp only [pvStep, recordPageview, he, appUV, prepareForSave]
  rw [getK_map, getK_setK_same]
  simp [prepareApp, saveUV]

theorem pvStep_rt_uv {d : Doc} {appName : String} {l : List String}
    (hl : l.Nodup) (h : appUV d appName = some (.arr l))
    (dateKey sourceKey todayKey : String) :
    appUV (pvStep appName dateKey sourceKey todayKey d .roundtrip) appName
      = some (.arr l) := by
  obtain ⟨a, hg, hu⟩ := appUV_some h
  have he : ensureApp d appName todayKey
      = ({ d with apps := setK d.apps appName { a with uniqueVisitors := UV.set l } },
         { a with uniqueVisitors := UV.set l }) := by
    simp [ensureApp, hg, hu, repairUV, dedupKeepFirst_of_nodup hl]
  simp only [pvStep, he, appUV, prepareForSave]
  rw [getK_map, getK_setK_same]
  simp [prepareApp, saveUV]

theorem ensureApp_empty (appName todayKey : String) :
    ensureApp emptyDoc appName todayKey
      = ({ apps := [(appName, freshApp todayKey)], global := none }, freshApp todayKey) := by
  simp [ensureApp, emptyDoc, getK, setK, freshApp, repairUV]

theorem pvStep_view_first (appName dateKey sourceKey todayKey v : String) :
    appUV (pvStep appName dateKey sourceKey todayKey emptyDoc (.view v)) appName
      = some (.arr [v]) := by
  simp only [pvStep, recordPageview, ensureApp_empty, appUV, prepareForSave]
  rw [getK_map, getK_setK_same]
  simp [prepareApp, saveUV, freshApp, setAdd]

theorem pvStep_rt_first (appName dateKey sourceKey todayKey : String) :
    appUV (pvStep appName dateKey sourceKey todayKey emptyDoc .roundtrip) appName
      = some (.arr []) := by
  simp only [pvStep, ensureApp_empty, appUV, prepareForSave]
  rw [getK_map]
  simp [getK, prepareApp, saveUV, freshApp]

theorem runEvents_uv_aux (appName dateKey sourceKey todayKey : String) :
    ∀ (es : List PvEvent) (d : Doc) (l : List String), l.Nodup →
      appUV d appName = some (.arr l) →
      appUV (es.foldl (pvStep appName dateKey sourceKey todayKey) d) appName
        = some (.arr ((viewsOf es).foldl setAdd l))
      ∧ ((viewsOf es).foldl setAdd l).Nodup := by
  intro es
  induction es with
  | nil =>
    intro d l hl h
    exact ⟨by simpa [viewsOf] using h, by simpa [viewsOf] using hl⟩
  | cons e t ih =>
    intro d l hl h
    cases e with
    | view v =>
      have h1 := pvStep_view_uv hl h dateKey sourceKey todayKey v
      have h2 := ih _ (setAdd l v) (setAdd_nodup hl) h1
      exact ⟨by simpa [viewsOf] using h2.1, by simpa [viewsOf] using h2.2⟩
    | roundtrip =>
      have h1 := pvStep_rt_uv hl h dateKey sourceKey todayKey
      have h2 := ih _ l hl h1
      exact ⟨by simpa [viewsOf] using h2.1, by simpa [viewsOf] using h2.2⟩

/-- C1: for every nonempty sequence of pageview recordings against the same
app, interleaved with arbitrarily many serialize/deserialize round trips of
the document, the persisted app entry's `uniqueVisitors` collection holds
the distinct visitor ids in first-use order, without duplicates, and its
size equals the number of distinct visitor identifiers used. -/
theorem pageview_uniqueVisitors_distinct (events : List PvEvent)
    (appName dateKey sourceKey todayKey : String) (h : events ≠ []) :
    appUV (runEvents events appName dateKey sourceKey todayKey) appName
      = some (.arr (dedupKeepFirst (viewsOf events)))
    ∧ (dedupKeepFirst (viewsOf events)).Nodup
    ∧ (dedupKeepFirst (viewsOf events)).length = (viewsOf events).toFinset.card := by
  refine ⟨?_, dedupKeepFirst_nodup _, dedupKeepFirst_length _⟩
  cases events with
  | nil => exact absurd rfl h
  | cons e t =>
    unfold runEvents
    rw [List.foldl_cons]
    cases e with
    | view v =>
      have h0 := pvStep_view_first appName dateKey sourceKey todayKey v
      have h1 := (runEvents_uv_aux appName dateKey sourceKey todayKey t _ [v]
        (by simp) h0).1
      rw [h1]
      simp [viewsOf, dedupKeepFirst, List.foldl_cons, setAdd]
    | roundtrip =>
      have h0 := pvStep_rt_first appName dateKey sourceKey todayKey
      have h1 := (runEvents_uv_aux appName dateKey sourceKey todayKey t _ []
        List.nodup_nil h0).1
      rw [h1]
      simp [viewsOf, dedupKeepFirst]

/-- Witness for `pageview_uniqueVisitors_distinct`: two distinct visitors,
one repeated after a round trip. -/
theorem pageview_uniqueVisitors_distinct_witness :
    appUV (runEvents [.view "a", .view "b", .roundtrip, .view "a"]
        "quiz" "2026-01-01" "direct" "2026-01-01") "quiz"
      = some (.arr (dedupKeepFirst (viewsOf [.view "a", .view "b", .roundtrip, .view "a"])))
    ∧ (dedupKeepFirst (viewsOf [.view "a", .view "b", .roundtrip, .view "a"])).Nodup
    ∧ (dedupKeepFirst (viewsOf [.view "a", .view "b", .roundtrip, .view "a"])).length
        = (viewsOf [.view "a", .view "b", .roundtrip, .view "a"]).toFinset.card :=
  pageview_uniqueVisitors_distinct [.view "a", .view "b", .roundtrip, .view "a"]
    "quiz" "2026-01-01" "direct" "2026-01-01" (by decide)

/-! ### Round-trip idempotence -/

theorem uv_save_repair_save {u : UV} (h : uvGoodB u = true) :
    saveUV (repairUV (saveUV u)) = saveUV u := by
  cases u with
  | set l =>
    simp only [uvGoodB, decide_eq_true_eq] at h
    simp [saveUV, repairUV, dedupKeepFirst_of_nodup h]
  | arr l =>
    simp only [uvGoodB, decide_eq_true_eq] at h
    simp [saveUV, repairUV, dedupKeepFirst_of_nodup h]
  | other => simp [uvGoodB] at h

theorem app_save_repair_save {a : AppStats} (h : uvGoodB a.uniqueVisitors = true) :
    prepareApp (repairApp (prepareApp a)) = prepareApp a := by
  cases a with
  | mk fs tv uv dv iv sv av tt cs sh ac =>
    simp only [prepareApp, repairApp]
    simp only at h
    simp [uv_save_repair_save h]

/-- C2: serializing a well-formed document (`prepareForSave`), running the
deserialize-side repair over it, and serializing again yields output
structurally identical to the first serialization. -/
theorem serialize_roundtrip_idempotent (d : Doc) (h : wellFormedB d = true) :
    prepareForSave (repairAll (prepareForSave d)) = prepareForSave d := by
  have happs : ∀ p ∈ d.apps, uvGoodB p.2.uniqueVisitors = true := by
    intro p hp
    exact List.all_eq_true.mp h p hp
  simp only [prepareForSave, repairAll, List.map_map]
  congr 1
  apply List.map_congr_left
  intro p hp
  simp only [Function.comp]
  exact congrArg (fun x => (p.1, x)) (app_save_repair_save (happs p hp))

/-- Witness for `serialize_roundtrip_idempotent` on a concrete well-formed
document. -/
theorem serialize_roundtrip_idempotent_witness :
    wellFormedB docSetA = true
    ∧ prepareForSave (repairAll (prepareForSave docSetA)) = prepareForSave docSetA :=
  ⟨by decide, serialize_roundtrip_idempotent docSetA (by decide)⟩

/-! ### Bounded score-list lemmas -/

theorem pushScore_lastN (l : List ScoreRec) (r : ScoreRec) :
    pushScore (l.drop (l.length - 100)) r = (l ++ [r]).drop (l.length + 1 - 100) := by
  by_cases h : l.length < 100
  · have h0 : l.length - 100 = 0 := by omega
    have h1 : l.length + 1 - 100 = 0 := by omega
    rw [h0, h1, List.drop_zero, List.drop_zero]
    unfold pushScore
    rw [if_neg (by simp; omega)]
  · have hlen : (l.drop (l.length - 100)).length = 100 := by
      rw [List.length_drop]
      omega
    unfold pushScore
    rw [if_pos (by simp only [List.length_append, hlen, List.length_singleton]; omega)]
    simp only [List.length_append, hlen, List.length_singleton]
    have h2 : (100 : Nat) + 1 - 100 = 1 := by omega
    rw [h2, List.drop_append_of_le_length (by omega),
        List.drop_append_of_le_length (by omega), List.drop_drop]
    have h3 : l.length - 100 + 1 = l.length + 1 - 100 := by omega
    rw [h3]

theorem foldl_pushScore (rs : List ScoreRec) :
    rs.foldl pushScore [] = rs.drop (rs.length - 100) := by
  induction rs using List.reverseRecOn with
  | nil => rfl
  | append_singleton l r ih =>
    rw [List.foldl_append, List.foldl_cons, List.foldl_nil, ih, pushScore_lastN]
    simp

theorem getK_bumpIV_ne (m : List (String × IVal)) (k k2 : String) (h : k ≠ k2) :
    getK (bumpIV m k) k2 = getK m k2 := by
  have hne : ∀ (m2 : List (String × IVal)) (v : IVal), getK (setK m2 k v) k2 = getK m2 k2 :=
    fun m2 v => getK_setK_ne m2 k k2 v h
  cases hg : getK m k with
  | none => simp [bumpIV, hg, ivTruthy, getK_setK_same, hne]
  | some v =>
    cases v with
    | num n =>
      by_cases hn : n = 0
      · subst hn
        simp [bumpIV, hg, ivTruthy, getK_setK_same, hne]
      · simp [bumpIV, hg, ivTruthy, hn, getK_setK_same, hne]
    | list l => simp [bumpIV, hg, ivTruthy]

theorem appScores_some {d : Doc} {appName : String} {x : IVal}
    (h : appScores d appName = some x) :
    ∃ a, getK d.apps appName = some a ∧ getK a.interactions "scores" = some x := by
  unfold appScores at h
  cases hg : getK d.apps appName with
  | none => rw [hg] at h; simp at h
  | some a =>
    rw [hg] at h
    exact ⟨a, rfl, h⟩

theorem onbComplete_scores_step {d : Doc} {appName : String} {l : List ScoreRec}
    (h : appScores d appName = some (.list l)) (todayKey dateKey : String)
    (sm : Int × Int) :
    appScores (onbComplete d appName todayKey dateKey (some sm)) appName
      = some (.list (pushScore l (toRec dateKey sm))) := by
  obtain ⟨a, hg, hs⟩ := appScores_some h
  have he : ensureApp d appName todayKey
      = ({ d with apps := setK d.apps appName { a with uniqueVisitors := repairUV a.uniqueVisitors } },
         { a with uniqueVisitors := repairUV a.uniqueVisitors }) := by
    simp [ensureApp, hg]
  have hs2 : getK (bumpIV a.interactions "completed") "scores" = some (.list l) := by
    rw [getK_bumpIV_ne _ _ _ (by decide)]
    exact hs
  simp only [onbComplete, he]
  simp only [hs2, ivTruthy, if_true]
  simp only [appScores, prepareForSave]
  rw [getK_map, getK_setK_same]
  simp [prepareApp, getK_setK_same, toRec]

theorem onbComplete_scores_first (appName todayKey dateKey : String) (sm : Int × Int) :
    appScores (onbComplete emptyDoc appName todayKey dateKey (some sm)) appName
      = some (.list [toRec dateKey sm]) := by
  simp only [onbComplete, ensureApp_empty]
  simp only [appScores, prepareForSave]
  rw [getK_map]
  simp [freshApp, bumpIV, ivTruthy, getK, setK, getK_setK_same, prepareApp,
    pushScore, toRec]

theorem runCompletions_aux (appName todayKey dateKey : String) :
    ∀ (sms : List (Int × Int)) (d : Doc) (l : List ScoreRec),
      appScores d appName = some (.list l) →
      appScores
          (sms.foldl (fun d2 sm => onbComplete d2 appName todayKey dateKey (some sm)) d)
          appName
        = some (.list ((sms.map (toRec dateKey)).foldl pushScore l)) := by
  intro sms
  induction sms with
  | nil =>
    intro d l h
    simpa using h
  | cons sm t ih =>
    intro d l h
    rw [List.foldl_cons, List.map_cons, List.foldl_cons]
    exact ih _ _ (onbComplete_scores_step h todayKey dateKey sm)

/-- C6: the `interactions['scores']` list never exceeds 100 entries; after
any nonempty sequence of completions with scores against a fresh store,
exactly the most recent 100 records remain, oldest first (oldest dropped
first). -/
theorem scores_bounded_last100 (sms : List (Int × Int))
    (appName todayKey dateKey : String) (h : sms ≠ []) :
    appScores (runCompletions sms appName todayKey dateKey) appName
      = some (.list ((sms.map (toRec dateKey)).drop (sms.length - 100)))
    ∧ ((sms.map (toRec dateKey)).drop (sms.length - 100)).length ≤ 100 := by
  constructor
  · cases sms with
    | nil => exact absurd rfl h
    | cons sm t =>
      unfold runCompletions
      rw [List.foldl_cons]
      have h0 := onbComplete_scores_first appName todayKey dateKey sm
      have h1 := runCompletions_aux appName todayKey dateKey t _ [toRec dateKey sm] h0
      rw [h1]
      have h2 : [toRec dateKey sm] = pushScore [] (toRec dateKey sm) := by
        simp [pushScore]
      rw [h2, ← List.foldl_cons, ← List.map_cons, foldl_pushScore]
      simp
  · rw [List.length_drop, List.length_map]
    omega

/-- Witness for `scores_bounded_last100`: 105 sequential completions leave
the most recent 100 score records. -/
theorem scores_bounded_last100_witness :
    appScores (runCompletions ((List.range 105).map (fun i => ((i : Int), 105)))
        "quiz" "2026-01-01" "2026-01-01") "quiz"
      = some (.list ((((List.range 105).map (fun i => ((i : Int), 105))).map
          (toRec "2026-01-01")).drop
            (((List.range 105).map (fun i => ((i : Int), 105))).length - 100)))
    ∧ ((((List.range 105).map (fun i => ((i : Int), 105))).map
          (toRec "2026-01-01")).drop
            (((List.range 105).map (fun i => ((i : Int), 105))).length - 100)).length
        ≤ 100 :=
  scores_bounded_last100 ((List.range 105).map (fun i => ((i : Int), 105)))
    "quiz" "2026-01-01" "2026-01-01" (by simp [List.range_succ])

/-! ### Defensive re-typing of the scores field -/

/-- C7 counterexample: calling `onbComplete` with a score while
`interactions['scores']` holds the truthy numeric counter `5` leaves the
field as that number — it is not re-created as a list and nothing is
appended, because `!scores` is false for a truthy value and
`Array.isArray` then fails. -/
theorem scores_truthy_nonlist_not_retyped :
    appScores (onbComplete docNum5 "quiz" "2026-01-02" "2026-01-02" (some (8, 10))) "quiz"
      = some (.num 5) := by decide

/-- C7 (amended): when the prior `interactions['scores']` value is absent or
falsy (the number `0`), the field is re-created as a list and the new record
appended; a truthy non-list prior value (a nonzero number) is left unchanged
and the append is silently skipped. -/
theorem scores_retyping_on_falsy_only {d : Doc} {appName : String} {a : AppStats}
    (hg : getK d.apps appName = some a) (todayKey dateKey : String) (s m : Int) :
    (getK a.interactions "scores" = none →
      appScores (onbComplete d appName todayKey dateKey (some (s, m))) appName
        = some (.list [⟨s, m, dateKey⟩]))
    ∧ (getK a.interactions "scores" = some (.num 0) →
      appScores (onbComplete d appName todayKey dateKey (some (s, m))) appName
        = some (.list [⟨s, m, dateKey⟩]))
    ∧ (∀ n : Int, n ≠ 0 → getK a.interactions "scores" = some (.num n) →
      appScores (onbComplete d appName todayKey dateKey (some (s, m))) appName
        = some (.num n)) := by
  have he : ensureApp d appName todayKey
      = ({ d with apps := setK d.apps appName { a with uniqueVisitors := repairUV a.uniqueVisitors } },
         { a with uniqueVisitors := repairUV a.uniqueVisitors }) := by
    simp [ensureApp, hg]
  refine ⟨?_, ?_, ?_⟩
  · intro hs
    have hs2 : getK (bumpIV a.interactions "completed") "scores" = none := by
      rw [getK_bumpIV_ne _ _ _ (by decide)]
      exact hs
    simp only [onbComplete, he, hs2, ivTruthy, Bool.false_eq_true, if_false,
      getK_setK_same]
    simp only [appScores, prepareForSave]
    rw [getK_map, getK_setK_same]
    simp [prepareApp, getK_setK_same, pushScore]
  · intro hs
    have hs2 : getK (bumpIV a.interactions "completed") "scores" = some (.num 0) := by
      rw [getK_bumpIV_ne _ _ _ (by decide)]
      exact hs
    simp only [onbComplete, he, hs2, ivTruthy, decide_not, decide_eq_true_eq,
      getK_setK_same]
    simp only [appScores, prepareForSave]
    rw [getK_map, getK_setK_same]
    simp [prepareApp, getK_setK_same, pushScore]
  · intro n hn hs
    have hs2 : getK (bumpIV a.interactions "completed") "scores" = some (.num n) := by
      rw [getK_bumpIV_ne _ _ _ (by decide)]
      exact hs
    simp only [onbComplete, he, hs2, ivTruthy, hn, decide_not, decide_eq_true_eq]
    simp only [appScores, prepareForSave]
    rw [getK_map, getK_setK_same]
    simp [prepareApp, hs2]

/-- Witness for `scores_retyping_on_falsy_only`, exercising the falsy-`0`
branch on a concrete store. -/
theorem scores_retyping_on_falsy_only_witness :
    appScores (onbComplete docNum0 "quiz" "2026-01-02" "2026-01-02" (some (8, 10))) "quiz"
      = some (.list [⟨8, 10, "2026-01-02"⟩]) :=
  (@scores_retyping_on_falsy_only docNum0 "quiz" appNum0 (by decide)
    "2026-01-02" "2026-01-02" 8 10).2.1 (by decide)

/-! ### Time on page -/

theorem ite_zero_eq_max (n : Nat) : (if n = 0 then 1 else n) = max n 1 := by
  rcases n with _ | m
  · simp
  · simp

/-- C4: the elapsed time is `round((now - load) / 1000)` seconds; outside
the inclusive window `[1, 3600]` the call is a complete no-op (nothing is
read or written); inside it, `totalTimeOnPage` grows by the elapsed time,
`totalViews` is untouched, and afterwards
`avgTimeOnPage = round(totalTimeOnPage / max(totalViews, 1))`. -/
theorem recordTimeOnPage_spec (d : Doc) (appName todayKey : String)
    (now load : Nat) (a0 : AppStats) (ha : getK d.apps appName = some a0) :
    ((now - load + 500) / 1000 < 1 ∨ (now - load + 500) / 1000 > 3600 →
      recordTimeOnPage d appName todayKey now load = none)
    ∧ (1 ≤ (now - load + 500) / 1000 → (now - load + 500) / 1000 ≤ 3600 →
      ∃ d2 a2, recordTimeOnPage d appName todayKey now load = some d2
        ∧ getK d2.apps appName = some a2
        ∧ a2.totalTimeOnPage = a0.totalTimeOnPage + (now - load + 500) / 1000
        ∧ a2.totalViews = a0.totalViews
        ∧ a2.avgTimeOnPage = roundDiv a2.totalTimeOnPage (max a2.totalViews 1)) := by
  constructor
  · intro hc
    simp only [recordTimeOnPage]
    rw [if_pos hc]
  · intro h1 h2
    have hc : ¬((now - load + 500) / 1000 < 1 ∨ (now - load + 500) / 1000 > 3600) := by
      omega
    have he : ensureApp d appName todayKey
        = ({ d with apps := setK d.apps appName { a0 with uniqueVisitors := repairUV a0.uniqueVisitors } },
           { a0 with uniqueVisitors := repairUV a0.uniqueVisitors }) := by
      simp [ensureApp, ha]
    simp only [recordTimeOnPage, he]
    rw [if_neg hc]
    refine ⟨_, prepareApp { a0 with
        uniqueVisitors := repairUV a0.uniqueVisitors,
        totalTimeOnPage := a0.totalTimeOnPage + (now - load + 500) / 1000,
        avgTimeOnPage := roundDiv (a0.totalTimeOnPage + (now - load + 500) / 1000)
          (if a0.totalViews = 0 then 1 else a0.totalViews) },
      rfl, ?_, ?_, ?_, ?_⟩
    · simp only [prepareForSave]
      rw [getK_map, getK_setK_same]
      rfl
    · simp [prepareApp]
    · simp [prepareApp]
    · simp [prepareApp, ite_zero_eq_max]

/-- Witness for `recordTimeOnPage_spec`: 10 seconds on page are accepted
and averaged. -/
theorem recordTimeOnPage_spec_witness :
    ∃ d2 a2, recordTimeOnPage docNum5 "quiz" "2026-01-02" 10000 0 = some d2
      ∧ getK d2.apps "quiz" = some a2
      ∧ a2.totalTimeOnPage = appNum5.totalTimeOnPage + (10000 - 0 + 500) / 1000
      ∧ a2.totalViews = appNum5.totalViews
      ∧ a2.avgTimeOnPage = roundDiv a2.totalTimeOnPage (max a2.totalViews 1) :=
  (recordTimeOnPage_spec docNum5 "quiz" "2026-01-02" 10000 0 appNum5 (by decide)).2
    (by decide) (by decide)

/-! ### Session idle boundary -/

/-- C5: within a 30-minute idle gap (inclusive) the stored session id is
reused; strictly beyond it, or with no stored session, a fresh session is
created; in every case `lastActivity` becomes `now`, `pageviews` is
incremented, and the result is persisted to the slot before being
returned. -/
theorem getSession_idle_boundary (s0 : Session) (now : Nat) (freshId : String)
    (_h : s0.lastActivity ≤ now) :
    (now - s0.lastActivity ≤ 30 * 60 * 1000 →
      (getSession now (some s0) freshId).1.id = s0.id
      ∧ (getSession now (some s0) freshId).1.pageviews = s0.pageviews + 1)
    ∧ (now - s0.lastActivity > 30 * 60 * 1000 →
      (getSession now (some s0) freshId).1.id = freshId
      ∧ (getSession now (some s0) freshId).1.start = now
      ∧ (getSession now (some s0) freshId).1.pageviews = 1)
    ∧ ((getSession now none freshId).1.id = freshId
      ∧ (getSession now none freshId).1.pageviews = 1)
    ∧ (∀ stored : Option Session,
      (getSession now stored freshId).1.lastActivity = now
      ∧ (getSession now stored freshId).2 = some (getSession now stored freshId).1) := by
  refine ⟨?_, ?_, ?_, ?_⟩
  · intro hgap
    have hno : ¬(now - s0.lastActivity > 30 * 60 * 1000) := by omega
    simp [getSession, hno]
  · intro hgap
    simp [getSession, hgap]
  · simp [getSession]
  · intro stored
    cases stored with
    | none => simp [getSession]
    | some s =>
      by_cases hg : now - s.lastActivity > 30 * 60 * 1000 <;> simp [getSession, hg]

/-- Witness for `getSession_idle_boundary`: access at
`lastActivity + 30min - 1ms` reuses the session and bumps `pageviews`. -/
theorem getSession_idle_boundary_witness :
    (getSession 1799999 (some ⟨"s1", 0, 0, 3⟩) "s2").1.id = "s1"
    ∧ (getSession 1799999 (some ⟨"s1", 0, 0, 3⟩) "s2").1.pageviews = 3 + 1 :=
  (getSession_idle_boundary ⟨"s1", 0, 0, 3⟩ 1799999 "s2" (by decide)).1 (by decide)

/-! ### Referrer classification -/

/-- C8: referrer classification is first-match-wins in the fixed order of
lines 66-73: empty → `direct`, own domain → `internal` (even when a search
engine also appears in the URL), then search engines, twitter/x, reddit
(which wins over the later `t.co` check although `reddit.com` contains the
substring `t.co`), facebook/instagram, the short-link domain `t.co`, and
`referral` for every other non-empty referrer. -/
theorem referrer_category_order :
    (∀ ref : String, jsIncludes ref "onenightbuild.com" = true →
      getReferrerCategory ref = "internal")
    ∧ getReferrerCategory "" = "direct"
    ∧ getReferrerCategory "https://www.google.com/search?q=a" = "search"
    ∧ getReferrerCategory "https://twitter.com/u" = "twitter"
    ∧ getReferrerCategory "https://x.com/u" = "twitter"
    ∧ getReferrerCategory "https://www.reddit.com/r/a" = "reddit"
    ∧ getReferrerCategory "https://www.facebook.com/a" = "social"
    ∧ getReferrerCategory "https://instagram.com/a" = "social"
    ∧ getReferrerCategory "https://t.co/abc" = "twitter"
    ∧ getReferrerCategory "https://example.org/p" = "referral"
    ∧ getReferrerCategory "https://www.google.com/?q=twitter.com" = "search" := by
  refine ⟨?_, by decide, by decide, by decide, by decide, by decide, by decide,
    by decide, by decide, by decide, by decide⟩
  intro ref h
  by_cases h0 : ref = ""
  · subst h0
    exact absurd h (by decide)
  · simp [getReferrerCategory, h0, h]

/-- Witness for `referrer_category_order`: a referrer containing both the
own domain and a search-engine substring classifies as `internal`. -/
theorem referrer_category_order_witness :
    jsIncludes "https://onenightbuild.com/a?from=google.com" "onenightbuild.com" = true
    ∧ getReferrerCategory "https://onenightbuild.com/a?from=google.com" = "internal" :=
  ⟨by decide,
   referrer_category_order.1 "https://onenightbuild.com/a?from=google.com" (by decide)⟩

/-! ### The admin guard -/

/-- C9: when the resolved app namespace is the reserved `admin`, module
initialization leaves the persisted analytics document untouched — no
pageview is recorded and nothing is saved to the `onb_analytics` slot. -/
theorem admin_no_document_mutation (b : Browser) (path : String) (now : Nat)
    (newVisitorId freshSessionId dateKey utmSource referrer : String)
    (h : getAppName path = "admin") :
    (moduleInit b path now newVisitorId freshSessionId dateKey utmSource referrer).analyticsSlot
      = b.analyticsSlot := by
  simp [moduleInit, h]

/-- Witness for `admin_no_document_mutation` on the path `/admin/anything`. -/
theorem admin_no_document_mutation_witness :
    getAppName "/admin/anything" = "admin"
    ∧ (moduleInit ⟨none, none, docSetA⟩ "/admin/anything" 5000
        "v9" "s9" "2026-01-01" "" "").analyticsSlot = docSetA :=
  ⟨by decide,
   admin_no_document_mutation ⟨none, none, docSetA⟩ "/admin/anything" 5000
     "v9" "s9" "2026-01-01" "" "" (by decide)⟩

/-- C10: even when the namespace is the reserved `admin`, loading the
script still mutates the identity stores, because identity derivation runs
before the admin guard: the visitor slot ends up holding the existing id
(or the newly generated one when it was absent), and the session slot is
rewritten with `lastActivity = now` and an incremented `pageviews`. -/
theorem admin_still_touches_identity (b : Browser) (path : String) (now : Nat)
    (newVisitorId freshSessionId dateKey utmSource referrer : String)
    (h : getAppName path = "admin") :
    ((moduleInit b path now newVisitorId freshSessionId dateKey utmSource referrer).visitorSlot
        = some (match b.visitorSlot with | some id => id | none => newVisitorId))
    ∧ (moduleInit b path now newVisitorId freshSessionId dateKey utmSource referrer).sessionSlot
        = some (getSession now b.sessionSlot freshSessionId).1
    ∧ (getSession now b.sessionSlot freshSessionId).1.lastActivity = now
    ∧ (b.sessionSlot = none →
        (getSession now b.sessionSlot freshSessionId).1.pageviews = 1)
    ∧ (∀ s0, b.sessionSlot = some s0 → now - s0.lastActivity ≤ 30 * 60 * 1000 →
        (getSession now b.sessionSlot freshSessionId).1.pageviews = s0.pageviews + 1) := by
  refine ⟨?_, ?_, ?_, ?_, ?_⟩
  · simp [moduleInit, h]
  · simp [moduleInit, h, getSession]
  · cases hs : b.sessionSlot with
    | none => simp [getSession]
    | some s =>
      by_cases hg : now - s.lastActivity > 30 * 60 * 1000 <;> simp [getSession, hg]
  · intro hn
    simp [hn, getSession]
  · intro s0 hs hgap
    have hno : ¬(now - s0.lastActivity > 30 * 60 * 1000) := by omega
    simp [hs, getSession, hno]

/-- Witness for `admin_still_touches_identity`: an admin page load rewrites
the session slot and bumps the stored session's pageview counter. -/
theorem admin_still_touches_identity_witness :
    (moduleInit ⟨none, some ⟨"s1", 0, 0, 5⟩, docSetA⟩ "/admin/x" 600000
        "v9" "s9" "2026-01-01" "" "").sessionSlot
      = some (getSession 600000 (some ⟨"s1", 0, 0, 5⟩) "s9").1
    ∧ (getSession 600000 (some ⟨"s1", 0, 0, 5⟩) "s9").1.pageviews = 5 + 1 :=
  ⟨(admin_still_touches_identity ⟨none, some ⟨"s1", 0, 0, 5⟩, docSetA⟩ "/admin/x" 600000
      "v9" "s9" "2026-01-01" "" "" (by decide)).2.1,
   (admin_still_touches_identity ⟨none, some ⟨"s1", 0, 0, 5⟩, docSetA⟩ "/admin/x" 600000
      "v9" "s9" "2026-01-01" "" "" (by decide)).2.2.2.2 ⟨"s1", 0, 0, 5⟩ rfl (by decide)⟩

/-! ### Exception propagation -/

/-- C3 counterexample: the claim that no public operation ever propagates
an exception, for any prior persisted-store contents, is false — a
persisted `onb_analytics` slot holding the literal `null` makes
`window.onbTrack` throw (reading `.apps` of `null`), and when the visitor
slot is empty and the identity write fails, `getVisitorId` throws instead
of degrading to an ephemeral id. -/
theorem public_op_throws_counterexample :
    exceptOk (onbTrackE (.val .vnull) "quiz" "2026-01-01" "click" true) = false
    ∧ exceptOk (getVisitorId none "v_new" false) = false := by
  exact ⟨by decide, by decide⟩

/-- C3 (amended): `onbTrack` never throws provided the persisted analytics
slot is absent, unparseable, or an object-shaped document (load and save
failures are swallowed); and `getVisitorId` never throws provided an id is
already persisted or the identity write succeeds. -/
theorem public_ops_wellformed_no_throw :
    (∀ (slot : StoredSlot) (appName todayKey eventName : String) (writeOk : Bool),
      slotWellFormedB slot = true →
      exceptOk (onbTrackE slot appName todayKey eventName writeOk) = true)
    ∧ (∀ (slot : Option String) (newId : String) (writeOk : Bool),
      slot.isSome = true ∨ writeOk = true →
      exceptOk (getVisitorId slot newId writeOk) = true) := by
  constructor
  · intro slot appName todayKey eventName writeOk hwf
    cases slot with
    | absent => simp [onbTrackE, loadData, ensureAppE, exceptOk]
    | unparseable => simp [onbTrackE, loadData, ensureAppE, exceptOk]
    | val v =>
      cases v with
      | vnull => simp [slotWellFormedB] at hwf
      | vnum n => simp [slotWellFormedB] at hwf
      | vdoc d => simp [onbTrackE, loadData, ensureAppE, exceptOk]
  · intro slot newId writeOk hok
    cases slot with
    | some id => simp [getVisitorId, exceptOk]
    | none =>
      rcases hok with hok | hok
      · simp at hok
      · simp [getVisitorId, hok, exceptOk]

/-- Witness for `public_ops_wellformed_no_throw` on a concrete well-shaped
store and a persisted visitor id. -/
theorem public_ops_wellformed_no_throw_witness :
    exceptOk (onbTrackE (.val (.vdoc docSetA)) "quiz" "2026-01-01" "click" true) = true
    ∧ exceptOk (getVisitorId (some "v1") "v2" false) = true :=
  ⟨public_ops_wellformed_no_throw.1 (.val (.vdoc docSetA)) "quiz" "2026-01-01" "click"
      true (by decide),
   public_ops_wellformed_no_throw.2 (some "v1") "v2" false (Or.inl (by decide))⟩

end Analytics
